import Mathlib

set_option maxHeartbeats 1000000

/- Shallow embedding of the gmailSentExtractor repository (python).
   Strings are modelled as `List Char`; python dicts of email fields as
   structures; network calls as explicit oracles (attempt-indexed functions);
   exceptions as `Option`/`Except`.  Each definition is translated from the
   named source function in `src/`. -/

/-- Characters stripped by python `str.strip()` with no argument. -/
def isPySpace (c : Char) : Bool :=
  c = ' ' || c = '\t' || c = '\n' || c = '\r' || c = '\x0b' || c = '\x0c'

/-- Python `str.strip()`: drop whitespace from both ends. -/
def pyStrip (cs : List Char) : List Char :=
  ((cs.dropWhile isPySpace).reverse.dropWhile isPySpace).reverse

/-- Python `str.split(sep)` for a one-character separator: split on every
occurrence; the empty string yields `[""]`. -/
def splitOnChar (sep : Char) : List Char → List (List Char)
  | [] => [[]]
  | c :: rest =>
    if c = sep then [] :: splitOnChar sep rest
    else
      match splitOnChar sep rest with
      | [] => [[c]]
      | g :: gs => (c :: g) :: gs

/-- Index of the last `'@'` in a list, if any. -/
def findLastAt : List Char → Option Nat
  | [] => none
  | c :: rest =>
    match findLastAt rest with
    | some i => some (i + 1)
    | none => if c = '@' then some 0 else none

/-- Semantics of python `re.search(r"<?([^<]*@[^>]*)>?", ...)` at one start
position, after the optional leading `'<'` has been consumed: the greedy
`[^<]*` backtracks to the last `'@'` occurring before the first `'<'`, then
`[^>]*` greedily extends to the first `'>'` or the end.  Returns group 1. -/
def grabGroup (u : List Char) : Option (List Char) :=
  match findLastAt (u.takeWhile (fun c => c != '<')) with
  | some k => some (u.take (k + 1) ++ (u.drop (k + 1)).takeWhile (fun c => c != '>'))
  | none => none

/-- Attempt the regex match at one position.  When the first character is
`'<'` the optional `<?` must consume it (the branch that skips it needs an
`'@'` in the same place and fails). -/
def matchAt (u : List Char) : Option (List Char) :=
  if u.head? = some '<' then grabGroup u.tail else grabGroup u

/-- `re.search`: leftmost position at which the pattern matches. -/
def reSearch : List Char → Option (List Char)
  | [] => none
  | c :: rest =>
    match matchAt (c :: rest) with
    | some g => some g
    | none => reSearch rest

/-- First phase of `GmailService._split_email`: if a comma is present, keep
only the first comma-separated part, stripped. -/
def commaPhase (s : List Char) : List Char :=
  if ',' ∈ s then pyStrip (s.takeWhile (fun c => c != ',')) else s

/-- Second phase of `GmailService._split_email`: extract the regex group and
strip it, if the pattern `<?([^<]*@[^>]*)>?` matches. -/
def regexPhase (e : List Char) : List Char :=
  match reSearch e with
  | some g => pyStrip g
  | none => e

/-- Third phase of `GmailService._split_email`: split at `'@'`; exactly two
parts become (username, domain), anything else keeps the string as username
with an empty domain. -/
def atSplitPhase (e : List Char) : List Char × List Char :=
  match splitOnChar '@' e with
  | [a, b] => (pyStrip a, pyStrip b)
  | _ => (e, [])

/-- `GmailService._split_email` (src/gmail_service.py lines 53-84). -/
def _split_email (s : List Char) : List Char × List Char :=
  atSplitPhase (regexPhase (commaPhase s))

example : _split_email "\"Jane Doe\" <jane@example.com>, other@x.com".data
    = ("jane".data, "example.com".data) := by decide

example : _split_email " x".data = (" x".data, []) := by decide

theorem mem_pyStrip {a : Char} {l : List Char} (h : a ∈ pyStrip l) : a ∈ l := by
  unfold pyStrip at h
  rw [List.mem_reverse] at h
  have h1 := List.Sublist.mem h (List.dropWhile_sublist isPySpace)
  rw [List.mem_reverse] at h1
  exact List.Sublist.mem h1 (List.dropWhile_sublist isPySpace)

theorem findLastAt_eq_none {l : List Char} (h : '@' ∉ l) : findLastAt l = none := by
  induction l with
  | nil => rfl
  | cons c rest ih =>
    have hc : c ≠ '@' := fun hc => h (hc ▸ List.mem_cons_self c rest)
    have hr : '@' ∉ rest := fun hr => h (List.mem_cons_of_mem c hr)
    simp [findLastAt, ih hr, hc]

theorem grabGroup_eq_none {u : List Char} (h : '@' ∉ u) : grabGroup u = none := by
  have hpre : '@' ∉ u.takeWhile (fun c => c != '<') :=
    fun hm => h (List.Sublist.mem hm (List.takeWhile_sublist _))
  simp [grabGroup, findLastAt_eq_none hpre]

theorem matchAt_eq_none {u : List Char} (h : '@' ∉ u) : matchAt u = none := by
  have ht : '@' ∉ u.tail := fun hm => h (List.Sublist.mem hm (List.tail_sublist u))
  unfold matchAt
  by_cases hh : u.head? = some '<'
  · simp [hh, grabGroup_eq_none ht]
  · simp [hh, grabGroup_eq_none h]

theorem reSearch_eq_none {s : List Char} (h : '@' ∉ s) : reSearch s = none := by
  induction s with
  | nil => rfl
  | cons c rest ih =>
    have hr : '@' ∉ rest := fun hr => h (List.mem_cons_of_mem c hr)
    simp [reSearch, matchAt_eq_none h, ih hr]

theorem splitOnChar_eq_single {sep : Char} {l : List Char} (h : sep ∉ l) :
    splitOnChar sep l = [l] := by
  induction l with
  | nil => rfl
  | cons c rest ih =>
    have hc : c ≠ sep := fun hc => h (hc ▸ List.mem_cons_self c rest)
    have hr : sep ∉ rest := fun hr => h (List.mem_cons_of_mem c hr)
    simp [splitOnChar, hc, ih hr]

theorem regexPhase_eq_self {e : List Char} (h : '@' ∉ e) : regexPhase e = e := by
  simp [regexPhase, reSearch_eq_none h]

theorem atSplitPhase_no_at {e : List Char} (h : '@' ∉ e) : atSplitPhase e = (e, []) := by
  unfold atSplitPhase
  rw [splitOnChar_eq_single h]

/-- C1 (amended).  `GmailService._split_email` is a total function (it never
raises); when a comma is present only the first comma-separated part,
stripped, is used; for every input lacking both `'@'` and `','` the result is
the input string itself, NOT stripped of whitespace, paired with an empty
domain; and the To-header `"Jane Doe" <jane@example.com>, other@x.com` maps
to `("jane", "example.com")`. -/
theorem split_email_spec :
    (∀ s : List Char, '@' ∉ s → ',' ∉ s → _split_email s = (s, [])) ∧
    (∀ s : List Char, ',' ∈ s →
      _split_email s = _split_email (pyStrip (s.takeWhile (fun c => c != ',')))) ∧
    _split_email "\"Jane Doe\" <jane@example.com>, other@x.com".data
      = ("jane".data, "example.com".data) := by
  refine ⟨?_, ?_, by decide⟩
  · intro s hat hcomma
    unfold _split_email
    rw [commaPhase, if_neg hcomma, regexPhase_eq_self hat, atSplitPhase_no_at hat]
  · intro s hcomma
    have hmem : ',' ∉ pyStrip (s.takeWhile (fun c => c != ',')) := by
      intro hm
      have := List.mem_takeWhile_imp (mem_pyStrip hm)
      simp at this
    unfold _split_email
    rw [commaPhase, if_pos hcomma, commaPhase, if_neg hmem]

/-- C1 witness: the amended theorem applied at concrete inputs. -/
theorem split_email_spec_witness :
    _split_email "plainstring".data = ("plainstring".data, []) ∧
    _split_email "a b,c@d".data = _split_email (pyStrip "a b".data) := by
  constructor
  · exact split_email_spec.1 "plainstring".data (by decide) (by decide)
  · have h := split_email_spec.2.1 "a b,c@d".data (by decide)
    simpa using h

/-- C1 counterexample: the claim asserts that for every `s` lacking `'@'` the
result is `(trimmed s, "")`; the code does not trim when no comma is present,
so `" x"` maps to `(" x", "")`, not `("x", "")`. -/
theorem split_email_claim_false :
    '@' ∉ " x".data ∧
    _split_email " x".data = (" x".data, []) ∧
    pyStrip " x".data = "x".data ∧
    _split_email " x".data ≠ (pyStrip " x".data, []) := by decide

/-- Calendar timestamp (wall-clock fields), as carried by python `datetime`. -/
structure Timestamp where
  year : Nat
  month : Nat
  day : Nat
  hour : Nat
  minute : Nat
  second : Nat
deriving DecidableEq, Repr

/-- Gregorian leap-year rule, as in python `calendar`/`datetime`. -/
def isLeap (y : Nat) : Bool := (y % 4 == 0 && y % 100 != 0) || y % 400 == 0

def daysInMonth (y mo : Nat) : Nat :=
  if mo = 2 then (if isLeap y then 29 else 28)
  else if mo = 4 ∨ mo = 6 ∨ mo = 9 ∨ mo = 11 then 30
  else 31

/-- Range checks enforced by the python `datetime(...)` constructor; years are
restricted to four digits (1000-9999), the only values this pipeline
produces, so that `strftime("%Y")` always prints exactly four digits. -/
def Timestamp.Valid (t : Timestamp) : Bool :=
  decide (1000 ≤ t.year) && decide (t.year ≤ 9999) &&
  decide (1 ≤ t.month) && decide (t.month ≤ 12) &&
  decide (1 ≤ t.day) && decide (t.day ≤ daysInMonth t.year t.month) &&
  decide (t.hour ≤ 23) && decide (t.minute ≤ 59) && decide (t.second ≤ 59)

def digitChar (n : Nat) : Char := Char.ofNat (48 + n)

def digitVal (c : Char) : Nat := c.toNat - 48

def pad2 (n : Nat) : List Char := [digitChar (n / 10), digitChar (n % 10)]

def pad4 (n : Nat) : List Char :=
  [digitChar (n / 1000), digitChar (n / 100 % 10), digitChar (n / 10 % 10), digitChar (n % 10)]

/-- `strftime("%Y-%m-%d %H:%M:%S")` for four-digit years (the engine's and
the sink's canonical date format). -/
def fmtTimestamp (t : Timestamp) : List Char :=
  pad4 t.year ++ '-' :: (pad2 t.month ++ '-' :: (pad2 t.day ++ ' ' ::
    (pad2 t.hour ++ ':' :: (pad2 t.minute ++ ':' :: pad2 t.second))))

/-- Strict parse of the canonical `"%Y-%m-%d %H:%M:%S"` form, as done by
`pd.to_datetime(df["Date"], format="%Y-%m-%d %H:%M:%S", errors="coerce")` in
`ExportManager.export_to_excel` (`none` models coercion to NaT). -/
def parseCanonical (cs : List Char) : Option Timestamp :=
  match cs with
  | [y1, y2, y3, y4, c1, m1, m2, c2, d1, d2, c3, h1, h2, c4, n1, n2, c5, s1, s2] =>
    if c1 = '-' ∧ c2 = '-' ∧ c3 = ' ' ∧ c4 = ':' ∧ c5 = ':' ∧
        ([y1, y2, y3, y4, m1, m2, d1, d2, h1, h2, n1, n2, s1, s2].all Char.isDigit) = true then
      let t : Timestamp :=
        ⟨digitVal y1 * 1000 + digitVal y2 * 100 + digitVal y3 * 10 + digitVal y4,
         digitVal m1 * 10 + digitVal m2, digitVal d1 * 10 + digitVal d2,
         digitVal h1 * 10 + digitVal h2, digitVal n1 * 10 + digitVal n2,
         digitVal s1 * 10 + digitVal s2⟩
      if t.Valid = true then some t else none
    else none
  | _ => none

def daysBeforeMonth (y : Nat) : Nat → Nat
  | 0 => 0
  | 1 => 0
  | m + 2 => daysBeforeMonth y (m + 1) + daysInMonth y (m + 1)

def daysBeforeYear (y : Nat) : Nat :=
  365 * (y - 1) + (y - 1) / 4 - (y - 1) / 100 + (y - 1) / 400

/-- Day number in the proleptic Gregorian calendar (python
`datetime.toordinal` shifted by one). -/
def toOrdinalDay (t : Timestamp) : Nat :=
  daysBeforeYear t.year + daysBeforeMonth t.year t.month + (t.day - 1)

/-- Second count of a naive timestamp; python naive datetimes compare exactly
as these keys do. -/
def tsKey (t : Timestamp) : Nat :=
  toOrdinalDay t * 86400 + t.hour * 3600 + t.minute * 60 + t.second

/-- Absolute instant (UTC seconds) denoted by a timestamp together with an
optional UTC offset in minutes; aware python datetimes compare after
subtracting their offset, naive ones carry no offset. -/
def instantOf (t : Timestamp) (tzMin : Option Int) : Int :=
  (tsKey t : Int) - 60 * tzMin.getD 0

theorem digitChar_isDigit {d : Nat} (h : d < 10) : (digitChar d).isDigit = true := by
  interval_cases d <;> decide

theorem digitVal_digitChar {d : Nat} (h : d < 10) : digitVal (digitChar d) = d := by
  interval_cases d <;> decide

theorem parseCanonical_fmtTimestamp {t : Timestamp} (h : t.Valid = true) :
    parseCanonical (fmtTimestamp t) = some t := by
  obtain ⟨y, mo, d, hh, mi, s⟩ := t
  simp only [Timestamp.Valid, Bool.and_eq_true, decide_eq_true_eq] at h
  have hy2 : y ≤ 9999 := h.1.1.1.1.1.1.1.2
  have hmo2 : mo ≤ 12 := h.1.1.1.1.1.2
  have hd2 : d ≤ daysInMonth y mo := h.1.1.1.2
  have hh1 : hh ≤ 23 := h.1.1.2
  have hn1 : mi ≤ 59 := h.1.2
  have hs1 : s ≤ 59 := h.2
  have hdm : daysInMonth y mo ≤ 31 := by
    unfold daysInMonth
    split
    · split <;> omega
    · split <;> omega
  have hd31 : d ≤ 31 := le_trans hd2 hdm
  have e1 := digitVal_digitChar (show y / 1000 < 10 by omega)
  have e2 := digitVal_digitChar (show y / 100 % 10 < 10 by omega)
  have e3 := digitVal_digitChar (show y / 10 % 10 < 10 by omega)
  have e4 := digitVal_digitChar (show y % 10 < 10 by omega)
  have e5 := digitVal_digitChar (show mo / 10 < 10 by omega)
  have e6 := digitVal_digitChar (show mo % 10 < 10 by omega)
  have e7 := digitVal_digitChar (show d / 10 < 10 by omega)
  have e8 := digitVal_digitChar (show d % 10 < 10 by omega)
  have e9 := digitVal_digitChar (show hh / 10 < 10 by omega)
  have e10 := digitVal_digitChar (show hh % 10 < 10 by omega)
  have e11 := digitVal_digitChar (show mi / 10 < 10 by omega)
  have e12 := digitVal_digitChar (show mi % 10 < 10 by omega)
  have e13 := digitVal_digitChar (show s / 10 < 10 by omega)
  have e14 := digitVal_digitChar (show s % 10 < 10 by omega)
  have g1 := digitChar_isDigit (show y / 1000 < 10 by omega)
  have g2 := digitChar_isDigit (show y / 100 % 10 < 10 by omega)
  have g3 := digitChar_isDigit (show y / 10 % 10 < 10 by omega)
  have g4 := digitChar_isDigit (show y % 10 < 10 by omega)
  have g5 := digitChar_isDigit (show mo / 10 < 10 by omega)
  have g6 := digitChar_isDigit (show mo % 10 < 10 by omega)
  have g7 := digitChar_isDigit (show d / 10 < 10 by omega)
  have g8 := digitChar_isDigit (show d % 10 < 10 by omega)
  have g9 := digitChar_isDigit (show hh / 10 < 10 by omega)
  have g10 := digitChar_isDigit (show hh % 10 < 10 by omega)
  have g11 := digitChar_isDigit (show mi / 10 < 10 by omega)
  have g12 := digitChar_isDigit (show mi % 10 < 10 by omega)
  have g13 := digitChar_isDigit (show s / 10 < 10 by omega)
  have g14 := digitChar_isDigit (show s % 10 < 10 by omega)
  have ry : digitVal (digitChar (y / 1000)) * 1000 + digitVal (digitChar (y / 100 % 10)) * 100 +
      digitVal (digitChar (y / 10 % 10)) * 10 + digitVal (digitChar (y % 10)) = y := by
    rw [e1, e2, e3, e4]; omega
  have rmo : digitVal (digitChar (mo / 10)) * 10 + digitVal (digitChar (mo % 10)) = mo := by
    rw [e5, e6]; omega
  have rd : digitVal (digitChar (d / 10)) * 10 + digitVal (digitChar (d % 10)) = d := by
    rw [e7, e8]; omega
  have rh : digitVal (digitChar (hh / 10)) * 10 + digitVal (digitChar (hh % 10)) = hh := by
    rw [e9, e10]; omega
  have rn : digitVal (digitChar (mi / 10)) * 10 + digitVal (digitChar (mi % 10)) = mi := by
    rw [e11, e12]; omega
  have rs : digitVal (digitChar (s / 10)) * 10 + digitVal (digitChar (s % 10)) = s := by
    rw [e13, e14]; omega
  simp only [fmtTimestamp, pad4, pad2, List.cons_append, List.nil_append, parseCanonical]
  rw [if_pos (by
    simp [g1, g2, g3, g4, g5, g6, g7, g8, g9, g10, g11, g12, g13, g14])]
  simp only [ry, rmo, rd, rh, rn, rs]
  rw [if_pos (show Timestamp.Valid ⟨y, mo, d, hh, mi, s⟩ = true by
    simp only [Timestamp.Valid, Bool.and_eq_true, decide_eq_true_eq]; exact h)]

def toLowerList (cs : List Char) : List Char := cs.map Char.toLower

/-- Lookup in `email._parseaddr._monthnames` (abbreviated names), 1-based. -/
def monthNum (w : List Char) : Option Nat :=
  if w = "jan".data then some 1 else if w = "feb".data then some 2
  else if w = "mar".data then some 3 else if w = "apr".data then some 4
  else if w = "may".data then some 5 else if w = "jun".data then some 6
  else if w = "jul".data then some 7 else if w = "aug".data then some 8
  else if w = "sep".data then some 9 else if w = "oct".data then some 10
  else if w = "nov".data then some 11 else if w = "dec".data then some 12
  else none

def digitsToNat (cs : List Char) : Nat :=
  cs.foldl (fun acc c => acc * 10 + digitVal c) 0

/-- python `int(tok)` on a nonempty all-digit token. -/
def readNat (cs : List Char) : Option Nat :=
  if cs ≠ [] ∧ (cs.all Char.isDigit) = true then some (digitsToNat cs) else none

/-- The `HH:MM:SS` clock token of the internet-date grammar. -/
def parseTimeTok (w : List Char) : Option (Nat × Nat × Nat) := do
  match splitOnChar ':' w with
  | [a, b, c] =>
    let hh ← readNat a
    let mi ← readNat b
    let ss ← readNat c
    some (hh, mi, ss)
  | _ => none

/-- `±HHMM` numeric zone token: UTC offset in minutes; an absent token (the
dummy empty token appended by `parsedate_tz`) gives no offset (naive). -/
def parseTzTok (w : List Char) : Option (Option Int) :=
  match w with
  | [] => some none
  | '+' :: [a, b, c, d] =>
    if ([a, b, c, d].all Char.isDigit) = true then
      some (some (Int.ofNat ((digitVal a * 10 + digitVal b) * 60 + (digitVal c * 10 + digitVal d))))
    else none
  | '-' :: [a, b, c, d] =>
    if ([a, b, c, d].all Char.isDigit) = true then
      some (some (-(Int.ofNat ((digitVal a * 10 + digitVal b) * 60 + (digitVal c * 10 + digitVal d)) : Int)))
    else none
  | _ => none

/-- `parsedate_tz` deletes a leading day-name token ending in a comma. -/
def dropDayName : List (List Char) → List (List Char)
  | [] => []
  | w :: rest => if w.getLast? = some ',' then rest else w :: rest

def readYear4 (yTok : List Char) : Option Nat :=
  if yTok.length = 4 then readNat yTok else none

def rfcAssemble (dTok mTok yTok tTok zTok : List Char) :
    Option (Timestamp × Option Int) :=
  match readNat dTok, monthNum (toLowerList mTok), readYear4 yTok,
      parseTimeTok tTok, parseTzTok zTok with
  | some dd, some mo, some yy, some tm, some tz =>
    if (Timestamp.Valid ⟨yy, mo, dd, tm.1, tm.2.1, tm.2.2⟩) = true then
      some (⟨yy, mo, dd, tm.1, tm.2.1, tm.2.2⟩, tz)
    else none
  | _, _, _, _, _ => none

/-- `email.utils.parsedate_to_datetime` restricted to the grammar subset
`[Day, ] D Mon YYYY HH:MM:SS [±HHMM]` with a four-digit year (the only shape
this pipeline feeds it).  Returns the wall-clock fields together with the UTC
offset in minutes (`none` models a naive result).  Range checks are the ones
the `datetime` constructor enforces; `none` models the ValueError that the
engine catches. -/
def rfcParse (cs : List Char) : Option (Timestamp × Option Int) :=
  match dropDayName ((splitOnChar ' ' cs).filter (fun w => w != [])) with
  | [dTok, mTok, yTok, tTok] => rfcAssemble dTok mTok yTok tTok []
  | [dTok, mTok, yTok, tTok, zTok] => rfcAssemble dTok mTok yTok tTok zTok
  | _ => none

/-- Wall-clock part of the parse: exactly what `strftime` prints. -/
def rfcParseTs (cs : List Char) : Option Timestamp := (rfcParse cs).map Prod.fst

theorem rfcAssemble_valid {a b c d e : List Char} {t : Timestamp} {tz : Option Int}
    (h : rfcAssemble a b c d e = some (t, tz)) : t.Valid = true := by
  unfold rfcAssemble at h
  split at h
  · split at h
    · rename_i hval
      injection h with hpair
      injection hpair with h1 h2
      rw [← h1]
      exact hval
    · exact absurd h (by simp)
  · exact absurd h (by simp)

theorem rfcParse_valid {cs : List Char} {t : Timestamp} {tz : Option Int}
    (h : rfcParse cs = some (t, tz)) : t.Valid = true := by
  unfold rfcParse at h
  split at h
  · exact rfcAssemble_valid h
  · exact rfcAssemble_valid h
  · exact absurd h (by simp)

/-- C6 counterexample: the aware date `"Mon, 1 Jan 2024 10:00:00 +0500"`
parses to wall-clock `2024-01-01 10:00:00` with offset `+300` minutes; the
canonical format drops the offset, so re-parsing the canonical output yields
a timestamp whose instant differs from the original by 300 minutes. -/
theorem roundtrip_claim_false :
    rfcParse "Mon, 1 Jan 2024 10:00:00 +0500".data
      = some (⟨2024, 1, 1, 10, 0, 0⟩, some 300) ∧
    fmtTimestamp ⟨2024, 1, 1, 10, 0, 0⟩ = "2024-01-01 10:00:00".data ∧
    parseCanonical "2024-01-01 10:00:00".data = some ⟨2024, 1, 1, 10, 0, 0⟩ ∧
    instantOf ⟨2024, 1, 1, 10, 0, 0⟩ none ≠ instantOf ⟨2024, 1, 1, 10, 0, 0⟩ (some 300) := by
  refine ⟨by decide, by decide, by decide, by decide⟩

/-- C6 (amended): for every date string the internet-date parser accepts,
formatting to the canonical `"YYYY-MM-DD HH:MM:SS"` form and re-parsing the
canonical output returns exactly the same wall-clock timestamp; the absolute
instant is preserved precisely when the parsed offset was absent or zero,
because the canonical format discards the UTC offset. -/
theorem roundtrip_spec :
    ∀ (cs : List Char) (t : Timestamp) (tz : Option Int),
      rfcParse cs = some (t, tz) →
      parseCanonical (fmtTimestamp t) = some t ∧
      ((tz = none ∨ tz = some 0) → instantOf t none = instantOf t tz) := by
  intro cs t tz h
  refine ⟨parseCanonical_fmtTimestamp (rfcParse_valid h), ?_⟩
  rintro (rfl | rfl) <;> simp [instantOf]

/-- C6 witness: the amended theorem applied to a zero-offset concrete date. -/
theorem roundtrip_spec_witness :
    parseCanonical (fmtTimestamp ⟨2024, 1, 1, 10, 0, 0⟩) = some ⟨2024, 1, 1, 10, 0, 0⟩ :=
  (roundtrip_spec "Mon, 1 Jan 2024 10:00:00 +0000".data ⟨2024, 1, 1, 10, 0, 0⟩ (some 0)
    (by decide)).1

/-- A python Gmail-API header entry: {"name": ..., "value": ...}. -/
abbrev Header := List Char × List Char

/-- Case-insensitive name comparison used by `_get_header`. -/
def lowerEq (a b : List Char) : Bool := toLowerList a == toLowerList b

/-- `GmailService._get_header` with a string default: first header whose name
matches case-insensitively, else the default. -/
def _get_header (hs : List Header) (name deflt : List Char) : List Char :=
  ((hs.find? (fun h => lowerEq h.1 name)).map Prod.snd).getD deflt

/-- `GmailService._get_header` called with default `None` (python falsy). -/
def getHeaderOpt (hs : List Header) (name : List Char) : Option (List Char) :=
  (hs.find? (fun h => lowerEq h.1 name)).map Prod.snd

/-- One normalized mail record as built by the engine (the python dict with
keys Date / Username / Domain / Subject). -/
structure EmailData where
  date : List Char
  username : List Char
  domain : List Char
  subject : List Char
deriving DecidableEq, Repr

/-- The sentinel substituted by the export sink for invalid dates. -/
def sentinelDate : List Char := "1900-01-01 00:00:00".data

/-- Per-message field extraction in `get_sent_emails_with_progress`
(src/gmail_service.py lines 387-417), after a successful detail fetch.  A
missing or empty Date header hits `if not date_str: continue`; a parse
failure hits `except: continue`; both drop the message (`none`).  On success
the date is formatted canonically before the record leaves the engine. -/
def extractEmailDataProgress (parseDate : List Char → Option Timestamp)
    (hs : List Header) : Option EmailData :=
  match getHeaderOpt hs "date".data with
  | none => none
  | some ds =>
    if ds = [] then none
    else
      match parseDate ds with
      | none => none
      | some t =>
        some ⟨fmtTimestamp t, (_split_email (_get_header hs "to".data "No Recipient".data)).1,
          (_split_email (_get_header hs "to".data "No Recipient".data)).2,
          _get_header hs "subject".data "No Subject".data⟩

/-- Per-message field extraction in `get_sent_emails` (src/gmail_service.py
lines 198-221): an unparsable or missing date yields the record with the
string `"No Date"`; the message is kept. -/
def extractEmailDataBasic (parseDate : List Char → Option Timestamp)
    (hs : List Header) : EmailData :=
  ⟨(match getHeaderOpt hs "date".data with
    | none => "No Date".data
    | some ds =>
      if ds = [] then "No Date".data
      else
        match parseDate ds with
        | none => "No Date".data
        | some t => fmtTimestamp t),
   (_split_email (_get_header hs "to".data "No Recipient".data)).1,
   (_split_email (_get_header hs "to".data "No Recipient".data)).2,
   _get_header hs "subject".data "No Subject".data⟩

/-- `ExportManager._clean_date` (src/export.py lines 25-34), parameterized by
the flexible parser `p` standing for `pd.to_datetime`: falsy or `"No Date"`
input and parse failures map to the sentinel; otherwise the parsed date is
reformatted canonically. -/
def _clean_date (p : List Char → Option Timestamp) (d : List Char) : List Char :=
  if d = [] ∨ d = "No Date".data then sentinelDate
  else
    match p d with
    | some t => fmtTimestamp t
    | none => sentinelDate

/-- C2 counterexample: in `get_sent_emails_with_progress` a message whose
Date header is missing is dropped (`continue`), not kept with the sentinel
`"1900-01-01 00:00:00"`; likewise for an unparsable date.  The claimed
sentinel record is never produced by the engine for these messages. -/
theorem engine_sentinel_claim_false :
    extractEmailDataProgress rfcParseTs [("To".data, "a@b.com".data)] = none ∧
    extractEmailDataProgress rfcParseTs
      [("Date".data, "not a date".data), ("To".data, "a@b.com".data)] = none := by
  refine ⟨by decide, by decide⟩

/-- C2 (amended): in `get_sent_emails_with_progress` a message with a
missing, empty or unparsable Date header is dropped from the result set (the
engine yields no record for it); for every successfully parsed date the
canonical `"YYYY-MM-DD HH:MM:SS"` string is produced inside the engine; the
sentinel `"1900-01-01 00:00:00"` is substituted only by the export sink's
`_clean_date`, for falsy/"No Date"/unparsable date strings. -/
theorem engine_date_handling_spec :
    (∀ pd hs, getHeaderOpt hs "date".data = none →
      extractEmailDataProgress pd hs = none) ∧
    (∀ pd hs ds, getHeaderOpt hs "date".data = some ds → ds ≠ [] → pd ds = none →
      extractEmailDataProgress pd hs = none) ∧
    (∀ pd hs ds t, getHeaderOpt hs "date".data = some ds → ds ≠ [] → pd ds = some t →
      ∃ r, extractEmailDataProgress pd hs = some r ∧ r.date = fmtTimestamp t) ∧
    (∀ p, _clean_date p "No Date".data = sentinelDate) ∧
    (∀ p d, d ≠ [] → d ≠ "No Date".data → p d = none → _clean_date p d = sentinelDate) := by
  refine ⟨?_, ?_, ?_, ?_, ?_⟩
  · intro pd hs h
    simp [extractEmailDataProgress, h]
  · intro pd hs ds h hne hp
    simp [extractEmailDataProgress, h, hne, hp]
  · intro pd hs ds t h hne hp
    refine ⟨⟨fmtTimestamp t,
      (_split_email (_get_header hs "to".data "No Recipient".data)).1,
      (_split_email (_get_header hs "to".data "No Recipient".data)).2,
      _get_header hs "subject".data "No Subject".data⟩, ?_, rfl⟩
    simp [extractEmailDataProgress, h, hne, hp]
  · intro p
    simp [_clean_date]
  · intro p d h1 h2 hp
    simp [_clean_date, h1, h2, hp]

/-- C2 witness: the amended theorem applied at concrete messages. -/
theorem engine_date_handling_spec_witness :
    extractEmailDataProgress rfcParseTs [("To".data, "a@b.com".data)] = none ∧
    extractEmailDataProgress rfcParseTs
      [("Date".data, "bad".data), ("To".data, "a@b.com".data)] = none ∧
    (∃ r, extractEmailDataProgress rfcParseTs
        [("Date".data, "Mon, 1 Jan 2024 10:00:00 +0000".data), ("To".data, "a@b.com".data)]
        = some r ∧ r.date = fmtTimestamp ⟨2024, 1, 1, 10, 0, 0⟩) ∧
    _clean_date rfcParseTs "No Date".data = sentinelDate := by
  refine ⟨?_, ?_, ?_, ?_⟩
  · exact engine_date_handling_spec.1 rfcParseTs _ (by decide)
  · exact engine_date_handling_spec.2.1 rfcParseTs _ "bad".data (by decide) (by decide) (by decide)
  · exact engine_date_handling_spec.2.2.1 rfcParseTs _ "Mon, 1 Jan 2024 10:00:00 +0000".data
      ⟨2024, 1, 1, 10, 0, 0⟩ (by decide) (by decide) (by decide)
  · exact engine_date_handling_spec.2.2.2.1 rfcParseTs

/-- Constants from src/gmail_service.py lines 32-34. -/
def MAX_RESULTS_PER_PAGE : Nat := 10000

def MAX_RETRIES : Nat := 3

def RETRY_DELAY : Nat := 1

/-- The `for retry in range(n): try ... break / except: if last: raise` loop
over an attempt-indexed oracle, for calls whose failure is swallowed by an
outer handler: first success among attempts `0..n-1`, else `none`. -/
def retryOption {α : Type} : Nat → (Nat → Option α) → Option α
  | 0, _ => none
  | n + 1, att =>
    match att 0 with
    | some a => some a
    | none => retryOption n (fun i => att (i + 1))

/-- Per-message processing in `get_sent_emails` (src/gmail_service.py lines
189-233): the detail fetch is attempted ONCE; an exception is logged and the
message dropped, with no retry (attempt 0 is the only one consulted). -/
def processMessageBasic (pd : List Char → Option Timestamp)
    (fetchAtt : Nat → Option (List Header)) : Option EmailData :=
  (fetchAtt 0).map (extractEmailDataBasic pd)

/-- Per-message processing in `get_sent_emails_with_progress`
(src/gmail_service.py lines 370-423): the detail fetch is wrapped in its own
`for retry in range(MAX_RETRIES)` loop with `time.sleep(RETRY_DELAY)` between
attempts; only after all attempts fail is the message logged and dropped. -/
def processMessageProgress (pd : List Char → Option Timestamp)
    (fetchAtt : Nat → Option (List Header)) : Option EmailData :=
  match retryOption MAX_RETRIES fetchAtt with
  | none => none
  | some hs => extractEmailDataProgress pd hs

/-- The per-page message loop of `get_sent_emails_with_progress`: failures of
single messages are skipped and processing continues with the rest. -/
def processPageProgress (pd : List Char → Option Timestamp)
    (msgs : List (Nat → Option (List Header))) : List EmailData :=
  msgs.filterMap (processMessageProgress pd)

/-- A detail fetch that fails on the first attempt and succeeds on the
second. -/
def retriedFetch : Nat → Option (List Header) :=
  fun n => if n = 0 then none
    else some [("Date".data, "Mon, 1 Jan 2024 10:00:00 +0000".data), ("To".data, "a@b.com".data)]

/-- C3 counterexample: in `get_sent_emails_with_progress` a failing detail
fetch IS retried: with a fetch that fails once and then succeeds, the message
is not dropped, contradicting the claim that per-message detail-fetch
failures are never retried in every retrieval variant. -/
theorem detail_fetch_retry_claim_false :
    retriedFetch 0 = none ∧
    processMessageProgress rfcParseTs retriedFetch ≠ none ∧
    processMessageBasic rfcParseTs retriedFetch = none := by
  refine ⟨by decide, by decide, by decide⟩

/-- C3 (amended): in `get_sent_emails` a per-message detail-fetch failure is
not retried (only attempt 0 is consulted; the message is logged and dropped);
in `get_sent_emails_with_progress` the detail fetch is retried up to
MAX_RETRIES = 3 attempts, the first success is used, and only after all three
attempts fail is the message dropped; in both variants the whole fetch is not
aborted and processing continues with the remaining messages. -/
theorem detail_fetch_retry_spec :
    (∀ pd (f : Nat → Option (List Header)), f 0 = none → processMessageBasic pd f = none) ∧
    (∀ pd (f : Nat → Option (List Header)) hs, f 0 = some hs →
      processMessageBasic pd f = some (extractEmailDataBasic pd hs)) ∧
    (∀ pd (f : Nat → Option (List Header)) hs, f 0 = none → f 1 = some hs →
      processMessageProgress pd f = extractEmailDataProgress pd hs) ∧
    (∀ pd (f : Nat → Option (List Header)), f 0 = none → f 1 = none → f 2 = none →
      processMessageProgress pd f = none) ∧
    (∀ pd ms1 ms2, processPageProgress pd (ms1 ++ ms2)
      = processPageProgress pd ms1 ++ processPageProgress pd ms2) := by
  refine ⟨?_, ?_, ?_, ?_, ?_⟩
  · intro pd f h
    simp [processMessageBasic, h]
  · intro pd f hs h
    simp [processMessageBasic, h]
  · intro pd f hs h0 h1
    simp [processMessageProgress, MAX_RETRIES, retryOption, h0, h1]
  · intro pd f h0 h1 h2
    simp [processMessageProgress, MAX_RETRIES, retryOption, h0, h1, h2]
  · intro pd ms1 ms2
    exact List.filterMap_append ms1 ms2 (processMessageProgress pd)

/-- C3 witness: the amended theorem applied at concrete fetch oracles. -/
theorem detail_fetch_retry_spec_witness :
    processMessageBasic rfcParseTs retriedFetch = none ∧
    processMessageProgress rfcParseTs retriedFetch
      = extractEmailDataProgress rfcParseTs
          [("Date".data, "Mon, 1 Jan 2024 10:00:00 +0000".data), ("To".data, "a@b.com".data)] ∧
    processMessageProgress rfcParseTs (fun _ => none) = none := by
  refine ⟨?_, ?_, ?_⟩
  · exact detail_fetch_retry_spec.1 rfcParseTs retriedFetch (by decide)
  · exact detail_fetch_retry_spec.2.2.1 rfcParseTs retriedFetch _ (by decide) (by decide)
  · exact detail_fetch_retry_spec.2.2.2.1 rfcParseTs (fun _ => none) rfl rfl rfl

/-- One page returned by `service.users().messages().list(...)`: the
`messages` entry and whether a `nextPageToken` is present. -/
structure MsgPage (μ : Type) where
  msgs : List μ
  next : Bool

/-- The listing retry loop (src/gmail_service.py lines 163-182 and 289-308):
attempts `i, i+1, ...` with `rem` retries left; `time.sleep(RETRY_DELAY)` runs
between failed attempts; the last attempt's exception is re-raised.  Returns
the result together with the total seconds slept. -/
def retryExceptAux {ε α : Type} (att : Nat → Except ε α) : Nat → Nat → Except ε α × Nat
  | i, 0 => (att i, 0)
  | i, rem + 1 =>
    match att i with
    | .ok a => (.ok a, 0)
    | .error _ =>
      let r := retryExceptAux att (i + 1) rem
      (r.1, r.2 + RETRY_DELAY)

/-- `for retry in range(MAX_RETRIES)` around one listing call. -/
def retryListing {ε α : Type} (att : Nat → Except ε α) : Except ε α × Nat :=
  retryExceptAux att 0 (MAX_RETRIES - 1)

/-- Page loop of `GmailService.get_sent_emails` (lines 139-250): each page
listing goes through the retry loop; exhausted retries re-raise and the outer
handler logs and re-raises, so the failure propagates to the caller.  `calls
p i` is attempt `i` of the listing call for page `p`; `fuel` bounds the
number of pages (the real loop ends when no `nextPageToken` is returned). -/
def getSentEmailsLoop (pd : List Char → Option Timestamp)
    (calls : Nat → Nat → Except (List Char) (MsgPage (Nat → Option (List Header)))) :
    Nat → Nat → List EmailData → Except (List Char) (List EmailData)
  | 0, _, acc => .ok acc
  | fuel + 1, pageIdx, acc =>
    match (retryListing (calls pageIdx)).1 with
    | .error e => .error e
    | .ok pg =>
      if pg.msgs.isEmpty then .ok acc
      else
        let acc2 := acc ++ pg.msgs.filterMap (processMessageBasic pd)
        if pg.next then getSentEmailsLoop pd calls fuel (pageIdx + 1) acc2 else .ok acc2

/-- `GmailService.get_sent_emails`, pagination and error behaviour. -/
def get_sent_emails (pd : List Char → Option Timestamp)
    (calls : Nat → Nat → Except (List Char) (MsgPage (Nat → Option (List Header))))
    (fuel : Nat) : Except (List Char) (List EmailData) :=
  getSentEmailsLoop pd calls fuel 0 []

/-- Page loop of `GmailService.get_total_messages` (lines 269-324): same
paginated listing with the same retry loop; counts the ids per page. -/
def getTotalLoop (calls : Nat → Nat → Except (List Char) (MsgPage Unit)) :
    Nat → Nat → Nat → Except (List Char) Nat
  | 0, _, acc => .ok acc
  | fuel + 1, pageIdx, acc =>
    match (retryListing (calls pageIdx)).1 with
    | .error e => .error e
    | .ok pg =>
      let acc2 := acc + pg.msgs.length
      if pg.next then getTotalLoop calls fuel (pageIdx + 1) acc2 else .ok acc2

/-- `GmailService.get_total_messages`: the whole loop sits inside
`try ... except Exception: log; return 0` — an exhausted retry does NOT
propagate, it is converted into the default total `0`. -/
def get_total_messages (calls : Nat → Nat → Except (List Char) (MsgPage Unit))
    (fuel : Nat) : Nat :=
  match getTotalLoop calls fuel 0 0 with
  | .ok n => n
  | .error _ => 0

/-- A listing oracle all of whose attempts fail. -/
def failingCalls {μ : Type} : Nat → Nat → Except (List Char) (MsgPage μ) :=
  fun _ _ => .error "boom".data

/-- C4 counterexample: when all 3 listing attempts fail, `get_sent_emails`
propagates the error, but `get_total_messages` swallows it and returns the
default total 0 — the claim that the total-count probe propagates exhausted
failures to the caller is false. -/
theorem total_count_retry_claim_false :
    retryListing (failingCalls (μ := Unit) 0) = (.error "boom".data, 2 * RETRY_DELAY) ∧
    get_sent_emails rfcParseTs failingCalls 1 = .error "boom".data ∧
    get_total_messages failingCalls 1 = 0 := by
  refine ⟨rfl, rfl, rfl⟩

/-- C4 (amended): every page-listing call, in `get_sent_emails` and in
`get_total_messages` alike, is retried up to MAX_RETRIES = 3 attempts with a
fixed RETRY_DELAY = 1 second sleep between attempts, and the first success is
used; when all 3 attempts fail, `get_sent_emails` propagates the failure to
its caller, but `get_total_messages` catches it and returns the default
total 0 instead of propagating. -/
theorem listing_retry_spec :
    (∀ {α : Type} (att : Nat → Except (List Char) α) (e0 e1 e2 : List Char),
      att 0 = .error e0 → att 1 = .error e1 → att 2 = .error e2 →
      retryListing att = (.error e2, 2 * RETRY_DELAY)) ∧
    (∀ {α : Type} (att : Nat → Except (List Char) α) (a : α),
      att 0 = .ok a → retryListing att = (.ok a, 0)) ∧
    (∀ {α : Type} (att : Nat → Except (List Char) α) (e0 : List Char) (a : α),
      att 0 = .error e0 → att 1 = .ok a → retryListing att = (.ok a, RETRY_DELAY)) ∧
    (∀ pd calls fuel e0 e1 e2,
      calls 0 0 = .error e0 → calls 0 1 = .error e1 → calls 0 2 = .error e2 →
      get_sent_emails pd calls (fuel + 1) = .error e2) ∧
    (∀ calls fuel e0 e1 e2,
      calls 0 0 = .error e0 → calls 0 1 = .error e1 → calls 0 2 = .error e2 →
      get_total_messages calls (fuel + 1) = 0) := by
  have hfail : ∀ {α : Type} (att : Nat → Except (List Char) α) (e0 e1 e2 : List Char),
      att 0 = .error e0 → att 1 = .error e1 → att 2 = .error e2 →
      retryListing att = (.error e2, 2 * RETRY_DELAY) := by
    intro α att e0 e1 e2 h0 h1 h2
    simp [retryListing, MAX_RETRIES, retryExceptAux, h0, h1, h2, RETRY_DELAY]
  refine ⟨hfail, ?_, ?_, ?_, ?_⟩
  · intro α att a h0
    simp [retryListing, MAX_RETRIES, retryExceptAux, h0]
  · intro α att e0 a h0 h1
    simp [retryListing, MAX_RETRIES, retryExceptAux, h0, h1, RETRY_DELAY]
  · intro pd calls fuel e0 e1 e2 h0 h1 h2
    simp [get_sent_emails, getSentEmailsLoop, hfail (calls 0) e0 e1 e2 h0 h1 h2]
  · intro calls fuel e0 e1 e2 h0 h1 h2
    simp [get_total_messages, getTotalLoop, hfail (calls 0) e0 e1 e2 h0 h1 h2]

/-- C4 witness: the amended theorem applied at concrete oracles. -/
theorem listing_retry_spec_witness :
    retryListing (failingCalls (μ := Unit) 0) = (.error "boom".data, 2 * RETRY_DELAY) ∧
    get_sent_emails rfcParseTs failingCalls 1 = .error "boom".data ∧
    get_total_messages failingCalls 1 = 0 := by
  refine ⟨?_, ?_, ?_⟩
  · exact listing_retry_spec.1 (failingCalls (μ := Unit) 0) "boom".data "boom".data
      "boom".data rfl rfl rfl
  · exact listing_retry_spec.2.2.2.1 rfcParseTs failingCalls 0 "boom".data "boom".data
      "boom".data rfl rfl rfl
  · exact listing_retry_spec.2.2.2.2 failingCalls 0 "boom".data "boom".data "boom".data
      rfl rfl rfl

/-- The engine-produced record as handed to the export sink (python dict with
Date/Username/Domain/Subject). -/
structure MailRecord where
  date : List Char
  username : List Char
  domain : List Char
  subject : List Char
deriving DecidableEq, Repr

/-- A record after `ExportManager._validate_data`. -/
structure CleanedRecord where
  date : List Char
  email : List Char
  domain : List Char
  subject : List Char
deriving DecidableEq, Repr

/-- A DataFrame row after the Date column has been converted to datetime. -/
structure DfRow where
  ts : Timestamp
  email : List Char
  domain : List Char
  subject : List Char
deriving DecidableEq, Repr

/-- `ExportManager._validate_data` (src/export.py lines 36-57): clean the
date, build Email from Username/Domain (or "No Email"), default the empty
domain to "No Domain", keep the subject. -/
def _validate_data (p : List Char → Option Timestamp) (recs : List MailRecord) :
    List CleanedRecord :=
  recs.map fun r =>
    ⟨_clean_date p r.date,
     if r.username ≠ [] ∧ r.domain ≠ [] then r.username ++ '@' :: r.domain else "No Email".data,
     if r.domain ≠ [] then r.domain else "No Domain".data,
     r.subject⟩

/-- `pd.to_datetime(df["Date"], format=..., errors="coerce")` followed by
`dropna(subset=["Date"])`: rows whose canonical parse fails are removed. -/
def toDf (cl : List CleanedRecord) : List DfRow :=
  cl.filterMap fun c => (parseCanonical c.date).map fun t => ⟨t, c.email, c.domain, c.subject⟩

/-- Comparison used by `df.sort_values("Date")`: datetime order. -/
def rowLe (a b : DfRow) : Bool := decide (tsKey a.ts ≤ tsKey b.ts)

/-- The sorted DataFrame of `ExportManager.export_to_excel` (lines 80-95). -/
def exportDf (p : List Char → Option Timestamp) (recs : List MailRecord) : List DfRow :=
  (toDf (_validate_data p recs)).mergeSort rowLe

/-- `ExportManager.export_to_excel` (src/export.py lines 59-146): empty input
returns failure (`none`); otherwise the data rows are written in the sorted
DataFrame order, with Date re-formatted canonically, in the column order
[Date, Email, Domain, Subject]. -/
def export_to_excel (p : List Char → Option Timestamp) (recs : List MailRecord) :
    Option (List (List (List Char))) :=
  if recs = [] then none
  else some ((exportDf p recs).map fun r => [fmtTimestamp r.ts, r.email, r.domain, r.subject])

theorem rowLe_trans : ∀ a b c : DfRow, rowLe a b = true → rowLe b c = true →
    rowLe a c = true := by
  intro a b c h1 h2
  simp only [rowLe, decide_eq_true_eq] at h1 h2 ⊢
  omega

theorem rowLe_total : ∀ a b : DfRow, (rowLe a b || rowLe b a) = true := by
  intro a b
  simp only [rowLe, Bool.or_eq_true, decide_eq_true_eq]
  omega

/-- C5 (as claimed): for every non-empty record list, `export_to_excel`
writes the rows of the sorted DataFrame — sorted ascending by the Date
(sent_at) key — regardless of the input order; the sorted rows are a
permutation of the parsed rows, so no reordering of the input changes the
ascending-by-date property. -/
theorem export_sorted_spec :
    ∀ (p : List Char → Option Timestamp) (recs : List MailRecord), recs ≠ [] →
      export_to_excel p recs
        = some ((exportDf p recs).map fun r => [fmtTimestamp r.ts, r.email, r.domain, r.subject]) ∧
      (exportDf p recs).Pairwise (fun a b => rowLe a b = true) ∧
      (exportDf p recs).Perm (toDf (_validate_data p recs)) := by
  intro p recs h
  refine ⟨?_, ?_, ?_⟩
  · simp [export_to_excel, h]
  · unfold exportDf
    exact List.sorted_mergeSort rowLe_trans rowLe_total _
  · unfold exportDf
    exact List.mergeSort_perm _ _

/-- Two records handed to the sink in reverse date order. -/
def sampleRecords : List MailRecord :=
  [⟨"2024-01-02 00:00:00".data, "u".data, "d".data, "s".data⟩,
   ⟨"2024-01-01 00:00:00".data, "u".data, "d".data, "s".data⟩]

/-- C5 witness: the theorem applied at a concrete out-of-order input. -/
theorem export_sorted_spec_witness :
    sampleRecords ≠ [] ∧
    (exportDf parseCanonical sampleRecords).Pairwise (fun a b => rowLe a b = true) :=
  ⟨by decide, (export_sorted_spec parseCanonical sampleRecords (by decide)).2.1⟩

/-- One account entry of accounts.json: email, auth_method ("oauth"/"imap"),
and an app_password key present only for imap accounts. -/
structure Account where
  email : List Char
  auth_method : List Char
  app_password : Option (List Char)
deriving DecidableEq, Repr

/-- Local state the account operations act on: the parsed accounts list plus
the files present in the tokens directory. -/
structure Store where
  accounts : List Account
  files : List (List Char)
deriving DecidableEq, Repr

/-- python `email.replace("@", "_at_")`. -/
def pyReplaceAt : List Char → List Char
  | [] => []
  | c :: rest => (if c = '@' then "_at_".data else [c]) ++ pyReplaceAt rest

/-- `FileManager.get_token_path` (src/file_manager.py lines 42-56), relative
to the tokens directory. -/
def token_path (e : List Char) : List Char :=
  "token_".data ++ pyReplaceAt e ++ ".pickle".data

/-- `GmailAccountManager.list_accounts` (src/account_manager.py lines 48-51). -/
def list_accounts (accs : List Account) : List (List Char) :=
  accs.map Account.email

/-- `GmailAccountManager.get_account_details` (lines 53-59): first entry with
a matching email. -/
def get_account_details (accs : List Account) (e : List Char) : Option Account :=
  accs.find? (fun a => a.email == e)

/-- `GmailAccountManager.get_account_token_path` (lines 126-131): a token
path is returned only for accounts registered with auth_method "oauth". -/
def get_account_token_path (accs : List Account) (e : List Char) : Option (List Char) :=
  match get_account_details accs e with
  | some a => if a.auth_method == "oauth".data then some (token_path e) else none
  | none => none

/-- Whether `GmailService.setup_service` raises `ValueError(f"Email ... not
registered")` (src/gmail_service.py lines 100-101): exactly when the
token-path lookup is falsy; the check is the first statement of the function,
before any credential or network work. -/
def setup_service_not_registered (accs : List Account) (e : List Char) : Bool :=
  (get_account_token_path accs e).isNone

/-- python falsiness of the app_password argument (`None` or the empty
string). -/
def pwMissing : Option (List Char) → Bool
  | none => true
  | some s => s.isEmpty

/-- `GmailAccountManager.add_account` (src/account_manager.py lines 61-101):
duplicates are rejected; for "imap" without an app password the internal
ValueError is caught by the surrounding handler and False is returned with
the store unchanged; otherwise the account is appended and True returned.
The function never consults `_validate_email`. -/
def add_account (accs : List Account) (e method : List Char) (pw : Option (List Char)) :
    Bool × List Account :=
  if accs.any (fun a => a.email == e) then (false, accs)
  else if method == "imap".data && pwMissing pw then (false, accs)
  else (true, accs ++ [⟨e, method, if method == "imap".data then pw else none⟩])

def isLocalChar (c : Char) : Bool :=
  c.isAlpha || c.isDigit || c = '.' || c = '_' || c = '%' || c = '+' || c = '-'

def isDomainChar (c : Char) : Bool :=
  c.isAlpha || c.isDigit || c = '.' || c = '-'

/-- `GmailAccountManager._validate_email` (lines 133-145): python
`bool(re.match(r"^[a-zA-Z0-9._%+-]+@[a-zA-Z0-9.-]+\.[a-zA-Z]{2,}$", email))`;
the `$` anchor also accepts one trailing newline.  The domain part must split
at its last dot into a nonempty `[a-zA-Z0-9.-]+` body and an alphabetic TLD
of length at least 2. -/
def _validate_email (cs0 : List Char) : Bool :=
  let cs := if cs0.getLast? = some '\n' then cs0.dropLast else cs0
  let locTok := cs.takeWhile isLocalChar
  match cs.drop locTok.length with
  | '@' :: rest =>
    (!locTok.isEmpty) &&
      (let r := rest.reverse
       let tldRev := r.takeWhile (fun c => c != '.')
       match r.drop tldRev.length with
       | '.' :: domRev =>
         decide (2 ≤ tldRev.length) && tldRev.all Char.isAlpha &&
           (!domRev.isEmpty) && domRev.all isDomainChar
       | _ => false)
  | _ => false

example : _validate_email "jane.doe+x@mail.example.co".data = true := by decide

example : _validate_email "a@b".data = false := by decide

/-- `GmailAccountManager.remove_account` (lines 103-124) together with
`FileManager.cleanup_token` (src/file_manager.py lines 90-108): keep only
accounts with a different email, save, delete the email's token file if
present, and return True — also when nothing matched. -/
def remove_account (st : Store) (e : List Char) : Bool × Store :=
  (true, ⟨st.accounts.filter (fun a => a.email != e),
          st.files.filter (fun f => f != token_path e)⟩)

/-- C7 counterexample: `add_account` performs no format validation — the
malformed address "notanemail" (rejected by `_validate_email`) is appended
and True is returned, contradicting the claim that malformed addresses give
False and an unchanged store. -/
theorem add_account_claim_false :
    _validate_email "notanemail".data = false ∧
    add_account [] "notanemail".data "oauth".data none
      = (true, [⟨"notanemail".data, "oauth".data, none⟩]) := by
  refine ⟨by decide, by decide⟩

/-- C7 (amended): `add_account` returns False and leaves the store unchanged
when the address is already registered, and when the method is "imap" with a
missing (falsy) app password; for every other new address — well-formed or
not — it appends the account and returns True.  Address-shape validation is
not performed by `add_account` (`_validate_email` exists but is consulted
only by UI code). -/
theorem add_account_spec :
    (∀ accs e m pw (a : Account), a ∈ accs → a.email = e →
      add_account accs e m pw = (false, accs)) ∧
    (∀ accs e pw, pwMissing pw = true →
      (∀ a ∈ accs, a.email ≠ e) →
      add_account accs e "imap".data pw = (false, accs)) ∧
    (∀ accs e m pw, (∀ a ∈ accs, a.email ≠ e) →
      (m = "imap".data → pwMissing pw = false) →
      add_account accs e m pw
        = (true, accs ++ [⟨e, m, if m = "imap".data then pw else none⟩])) := by
  have hany : ∀ (accs : List Account) (e : List Char), (∀ a ∈ accs, a.email ≠ e) →
      accs.any (fun a => a.email == e) = false := by
    intro accs e hall
    rw [Bool.eq_false_iff]
    intro hx
    obtain ⟨a, ha, hae⟩ := List.any_eq_true.mp hx
    exact hall a ha (by simpa using hae)
  refine ⟨?_, ?_, ?_⟩
  · intro accs e m pw a ha hae
    have hx : accs.any (fun a => a.email == e) = true :=
      List.any_eq_true.mpr ⟨a, ha, by simp [hae]⟩
    simp [add_account, hx]
  · intro accs e pw hpw hall
    simp [add_account, hany accs e hall, hpw]
  · intro accs e m pw hall hpw
    by_cases hm : m = "imap".data
    · have hp := hpw hm
      simp [add_account, hany accs e hall, hm, hp]
    · have hm2 : (m == "imap".data) = false := by simpa using hm
      simp [add_account, hany accs e hall, hm2, hm]

/-- C7 witness: the amended theorem applied at concrete stores. -/
theorem add_account_spec_witness :
    add_account [⟨"a@b.co".data, "oauth".data, none⟩] "a@b.co".data "oauth".data none
      = (false, [⟨"a@b.co".data, "oauth".data, none⟩]) ∧
    add_account [] "a@b.co".data "imap".data none = (false, []) ∧
    add_account [] "a@b.co".data "oauth".data none
      = (true, [⟨"a@b.co".data, "oauth".data, none⟩]) := by
  refine ⟨?_, ?_, ?_⟩
  · exact add_account_spec.1 _ "a@b.co".data "oauth".data none
      ⟨"a@b.co".data, "oauth".data, none⟩ (by simp) rfl
  · exact add_account_spec.2.1 [] "a@b.co".data none rfl (by simp)
  · have h := add_account_spec.2.2 [] "a@b.co".data "oauth".data none (by simp)
      (fun hx => absurd hx (by decide))
    simpa using h

/-- C8: after `remove_account(e)` returns True on a registered address, `e`
is absent from `list_accounts`, the cached token file for `e` is gone, and
exactly the accounts and files unrelated to `e` remain. -/
theorem remove_account_spec :
    ∀ (st : Store) (e : List Char), e ∈ list_accounts st.accounts →
      (remove_account st e).1 = true ∧
      e ∉ list_accounts (remove_account st e).2.accounts ∧
      token_path e ∉ (remove_account st e).2.files ∧
      (∀ a : Account, a ∈ (remove_account st e).2.accounts ↔ a ∈ st.accounts ∧ a.email ≠ e) ∧
      (∀ f, f ∈ (remove_account st e).2.files ↔ f ∈ st.files ∧ f ≠ token_path e) := by
  intro st e _he
  refine ⟨rfl, ?_, ?_, ?_, ?_⟩
  · intro hmem
    rw [list_accounts, List.mem_map] at hmem
    obtain ⟨a, ha, hae⟩ := hmem
    rw [remove_account] at ha
    rw [List.mem_filter] at ha
    exact absurd hae (by simpa using ha.2)
  · intro hmem
    rw [remove_account] at hmem
    rw [List.mem_filter] at hmem
    simp at hmem
  · intro a
    rw [remove_account]
    simp [List.mem_filter]
  · intro f
    rw [remove_account]
    simp [List.mem_filter]

/-- C8 witness: the theorem applied to a concrete two-account store. -/
theorem remove_account_spec_witness :
    (remove_account ⟨[⟨"a@b.co".data, "oauth".data, none⟩, ⟨"c@d.co".data, "oauth".data, none⟩],
        [token_path "a@b.co".data, token_path "c@d.co".data]⟩ "a@b.co".data).1 = true ∧
    "a@b.co".data ∉ list_accounts (remove_account
      ⟨[⟨"a@b.co".data, "oauth".data, none⟩, ⟨"c@d.co".data, "oauth".data, none⟩],
        [token_path "a@b.co".data, token_path "c@d.co".data]⟩ "a@b.co".data).2.accounts := by
  have h := remove_account_spec
    ⟨[⟨"a@b.co".data, "oauth".data, none⟩, ⟨"c@d.co".data, "oauth".data, none⟩],
      [token_path "a@b.co".data, token_path "c@d.co".data]⟩ "a@b.co".data (by decide)
  exact ⟨h.1, h.2.1⟩

/-- A store whose only account is registered with the imap method. -/
def imapOnlyAccounts : List Account := [⟨"a@b.com".data, "imap".data, some "pw".data⟩]

/-- C9 counterexample: an address registered via the supported "imap" auth
method still triggers the "not registered" ValueError in `setup_service`,
because `get_account_token_path` returns a path only for "oauth" accounts. -/
theorem setup_service_claim_false :
    "a@b.com".data ∈ list_accounts imapOnlyAccounts ∧
    setup_service_not_registered imapOnlyAccounts "a@b.com".data = true := by
  refine ⟨by decide, by decide⟩

/-- C9 (amended): `setup_service(e)` raises the "not registered" ValueError
exactly when `e` has no account whose auth_method is "oauth": every
unregistered address raises (immediately, before any credential or network
work), an address whose first matching account is "oauth" does not raise,
and an address registered with any other method (e.g. "imap") does raise. -/
theorem setup_service_spec :
    (∀ accs e, (∀ a ∈ accs, a.email ≠ e) → setup_service_not_registered accs e = true) ∧
    (∀ accs e a, get_account_details accs e = some a → a.auth_method = "oauth".data →
      setup_service_not_registered accs e = false) ∧
    (∀ accs e a, get_account_details accs e = some a → a.auth_method ≠ "oauth".data →
      setup_service_not_registered accs e = true) := by
  refine ⟨?_, ?_, ?_⟩
  · intro accs e hall
    have hfind : get_account_details accs e = none := by
      rw [get_account_details, List.find?_eq_none]
      intro a ha
      simp [hall a ha]
    simp [setup_service_not_registered, get_account_token_path, hfind]
  · intro accs e a hfind hoauth
    simp [setup_service_not_registered, get_account_token_path, hfind, hoauth]
  · intro accs e a hfind hoauth
    have h2 : (a.auth_method == "oauth".data) = false := by simpa using hoauth
    simp [setup_service_not_registered, get_account_token_path, hfind, h2]

/-- C9 witness: the amended theorem applied at concrete stores. -/
theorem setup_service_spec_witness :
    setup_service_not_registered [] "a@b.com".data = true ∧
    setup_service_not_registered [⟨"a@b.com".data, "oauth".data, none⟩] "a@b.com".data
      = false ∧
    setup_service_not_registered imapOnlyAccounts "a@b.com".data = true := by
  refine ⟨?_, ?_, ?_⟩
  · exact setup_service_spec.1 [] "a@b.com".data (by simp)
  · exact setup_service_spec.2.1 [⟨"a@b.com".data, "oauth".data, none⟩] "a@b.com".data
      ⟨"a@b.com".data, "oauth".data, none⟩ (by decide) rfl
  · exact setup_service_spec.2.2 imapOnlyAccounts "a@b.com".data
      ⟨"a@b.com".data, "imap".data, some "pw".data⟩ (by decide) (by decide)

/-- C10: removing an address that is not in the store still returns True and
leaves the stored account list unchanged — a no-op removal is
indistinguishable from a successful one by the return value. -/
theorem remove_unregistered_spec :
    ∀ (st : Store) (e : List Char), (∀ a ∈ st.accounts, a.email ≠ e) →
      (remove_account st e).1 = true ∧
      (remove_account st e).2.accounts = st.accounts := by
  intro st e hall
  refine ⟨rfl, ?_⟩
  rw [remove_account]
  exact List.filter_eq_self.mpr fun a ha => by simpa using hall a ha

/-- C10 witness: the theorem applied to a concrete store and an address not
in it. -/
theorem remove_unregistered_spec_witness :
    (remove_account ⟨[⟨"a@b.co".data, "oauth".data, none⟩], []⟩ "zz@q.co".data).1 = true ∧
    (remove_account ⟨[⟨"a@b.co".data, "oauth".data, none⟩], []⟩ "zz@q.co".data).2.accounts
      = [⟨"a@b.co".data, "oauth".data, none⟩] :=
  remove_unregistered_spec ⟨[⟨"a@b.co".data, "oauth".data, none⟩], []⟩ "zz@q.co".data
    (by decide)
